import Mathlib

/-!
Shallow embedding of `src/scripts/main.js` (class `GrowthTable`).

The DOM table is modelled as a list of `tbody` sections, each a list of
rows, each row a list of cell contents (`innerHTML` strings).  The class
state keeps the two bounds and the table element; the private methods
`#getBodyOfField`, `#syncCurrentState`, `#changeRows` and `#changeCols`
are translated one for one, with in-place DOM mutation made explicit by
returning the updated table.
-/

/-- A `<table>` element: its list of `<tbody>` sections, each a list of
rows, each row the list of its cells' `innerHTML` contents. -/
structure HtmlTable where
  tbodies : List (List (List String))
deriving DecidableEq

/-- The `_currentState` record of modificator flags. -/
structure CapabilityState where
  canAddX : Bool
  canRemX : Bool
  canAddY : Bool
  canRemY : Bool
deriving DecidableEq

/-- Instance state of the `GrowthTable` class: the `_minDimCount` and
`_maxDimCount` limits and the `_field` table element. -/
structure GrowthTable where
  minDimCount : Int
  maxDimCount : Int
  field : HtmlTable
deriving DecidableEq

/-- A DOM element, as far as the constructor inspects it: either an
`HTMLTableElement` or some other element. -/
inductive Elem where
  | tableElem (t : HtmlTable)
  | otherElem
deriving DecidableEq

/-- `#getBodyOfField`: `this._field.tBodies[0] ?? this._field.appendChild(
document.createElement('tbody'))`.  Returns the first tbody when one
exists; otherwise appends a fresh empty tbody (a DOM mutation, made
explicit in the second component) and returns it. -/
def getBodyOfField (t : HtmlTable) : List (List String) × HtmlTable :=
  match t.tbodies with
  | [] => ([], ⟨[[]]⟩)
  | b :: _ => (b, t)

/-- Writing the (in JS in-place mutated) tbody back into the table: the
tbody handed out by `getBodyOfField` is always `tBodies[0]` of the table
it returns. -/
def setBody (t : HtmlTable) (b : List (List String)) : HtmlTable :=
  match t.tbodies with
  | [] => ⟨[b]⟩
  | _ :: rest => ⟨b :: rest⟩

/-- The rows of the grid: the rows of the table's first tbody (none when
the table has no tbody). -/
def rowsOf (gt : GrowthTable) : List (List String) :=
  (getBodyOfField gt.field).1

/-- `tbody.rows[0]?.cells.length || 0`: the cell count of the first row,
or `0` when there is no first row (or its cell count is `0`). -/
def colCountJs (rows : List (List String)) : Int :=
  ((rows.head?.map List.length).getD 0 : Nat)

/-- `#syncCurrentState`: starts from all-true flags, clears each flag
whose limit check fails, and stores the result (the button
`disabled` assignments act on the buttons, not on the grid).  The second
component is the instance after the call (`#getBodyOfField` may have
created an empty tbody). -/
def syncCurrentState (gt : GrowthTable) : CapabilityState × GrowthTable :=
  let s0 : CapabilityState :=
    { canAddY := true, canRemY := true, canAddX := true, canRemX := true }
  let p := getBodyOfField gt.field
  let rowCount : Int := p.1.length
  let colCount : Int := colCountJs p.1
  let s1 := if rowCount ≥ gt.maxDimCount then { s0 with canAddY := false } else s0
  let s2 := if rowCount ≤ gt.minDimCount then { s1 with canRemY := false } else s1
  let s3 := if colCount ≥ gt.maxDimCount then { s2 with canAddX := false } else s2
  let s4 := if colCount ≤ gt.minDimCount then { s3 with canRemX := false } else s3
  (s4, { gt with field := p.2 })

/-- The add-rows loop of `#changeRows`:
`for (i = 0; i < delta; i++) { if (rows.length >= maxDim) break;
insertRow copying refRow }`.  `refRow` is fixed before the loop. -/
def addRows (maxDim : Int) (refRow : List String) :
    List (List String) → Nat → List (List String)
  | rows, 0 => rows
  | rows, n + 1 =>
      if (rows.length : Int) ≥ maxDim then rows
      else addRows maxDim refRow (rows ++ [refRow]) n

/-- The remove-rows loop of `#changeRows`:
`for (i = 0; i < numToRemove; i++) { if (rows.length <= minDim) break;
deleteRow(-1) }`. -/
def removeRows (minDim : Int) :
    List (List String) → Nat → List (List String)
  | rows, 0 => rows
  | rows, n + 1 =>
      if (rows.length : Int) ≤ minDim then rows
      else removeRows minDim rows.dropLast n

/-- `#changeRows(delta)`: positive `delta` appends copies of the last
row (a no-op when there is no row to copy); non-positive `delta` removes
`|delta|` trailing rows, stopping at `minDim`. -/
def changeRows (gt : GrowthTable) (delta : Int) : GrowthTable :=
  let p := getBodyOfField gt.field
  if delta > 0 then
    match p.1.getLast? with
    | none => { gt with field := p.2 }
    | some refRow =>
        { gt with field := setBody p.2 (addRows gt.maxDimCount refRow p.1 delta.toNat) }
  else
    { gt with field := setBody p.2 (removeRows gt.minDimCount p.1 delta.natAbs) }

/-- The per-row body of the add-cols branch of `#changeCols`: skip the
row when its cell count is already at or past `maxDim`, otherwise append
one cell copying the last cell's content (empty when the row has no
cells). -/
def growColsRow (maxDim : Int) (row : List String) : List String :=
  if (row.length : Int) ≥ maxDim then row
  else row ++ [row.getLast?.getD ""]

/-- The per-row body of the remove-cols branch of `#changeCols`: skip
the row when its cell count is already at or below `minDim`, otherwise
delete the last cell. -/
def shrinkColsRow (minDim : Int) (row : List String) : List String :=
  if (row.length : Int) ≤ minDim then row
  else row.dropLast

/-- `#changeCols(delta)`: positive `delta` runs the add-cols body on
every row, non-positive `delta` the remove-cols body; the magnitude of
`delta` is never read. -/
def changeCols (gt : GrowthTable) (delta : Int) : GrowthTable :=
  let p := getBodyOfField gt.field
  if delta > 0 then
    { gt with field := setBody p.2 (p.1.map (growColsRow gt.maxDimCount)) }
  else
    { gt with field := setBody p.2 (p.1.map (shrinkColsRow gt.minDimCount)) }

/-- The grow-rows intent (`clickHandler(0, 1)` generalised to a count):
`#changeRows` with a positive delta. -/
def growRows (gt : GrowthTable) (k : Nat) : GrowthTable :=
  changeRows gt (k : Int)

/-- The shrink-rows intent: `#changeRows` with a negative delta. -/
def shrinkRows (gt : GrowthTable) (k : Nat) : GrowthTable :=
  changeRows gt (-(k : Int))

/-- The grow-cols intent: `#changeCols` with a positive delta. -/
def growCols (gt : GrowthTable) (k : Nat) : GrowthTable :=
  changeCols gt (k : Int)

/-- The shrink-cols intent: `#changeCols` with a negative delta. -/
def shrinkCols (gt : GrowthTable) (k : Nat) : GrowthTable :=
  changeCols gt (-(k : Int))

/-- The constructor: resolves the field and the four buttons from the
DOM (`none` = selector matched nothing), throws when the field is not a
table element or any button is missing, stores the limits, and runs
`#syncCurrentState` once.  No further validation happens. -/
def construct (fieldEl addRowBtn remRowBtn addColBtn remColBtn : Option Elem)
    (minDimCount maxDimCount : Int) : Except String GrowthTable :=
  match fieldEl with
  | some (Elem.tableElem t) =>
      if addRowBtn.isSome && remRowBtn.isSome && addColBtn.isSome && remColBtn.isSome then
        Except.ok (syncCurrentState
          { minDimCount := minDimCount, maxDimCount := maxDimCount, field := t }).2
      else Except.error "Some of control elements are not found in DOM"
  | _ => Except.error "Table field element is not found in DOM"

/-- Rectangularity: every two rows have the same cell count. -/
def Rectangular (rows : List (List String)) : Prop :=
  ∀ r1 ∈ rows, ∀ r2 ∈ rows, r1.length = r2.length

instance (rows : List (List String)) : Decidable (Rectangular rows) := by
  unfold Rectangular; infer_instance

/-! ### Basic lemmas about the table plumbing -/

theorem getBody_snd (t : HtmlTable) :
    getBodyOfField (getBodyOfField t).2 = getBodyOfField t := by
  obtain ⟨tb⟩ := t
  cases tb with
  | nil => rfl
  | cons b rest => rfl

theorem getBody_setBody (t : HtmlTable) (b : List (List String)) :
    getBodyOfField (setBody t b) = (b, setBody t b) := by
  obtain ⟨tb⟩ := t
  cases tb with
  | nil => rfl
  | cons x rest => rfl

/-! ### Lemmas about the row loops -/

theorem addRows_of_ge (M : Int) (ref : List String) (rows : List (List String))
    (n : Nat) (h : (rows.length : Int) ≥ M) : addRows M ref rows n = rows := by
  cases n with
  | zero => rfl
  | succ n => unfold addRows; rw [if_pos h]

theorem addRows_eq (M : Int) (ref : List String) :
    ∀ (n : Nat) (rows : List (List String)), (rows.length : Int) < M →
      addRows M ref rows n = rows ++ List.replicate (min n (M.toNat - rows.length)) ref := by
  intro n
  induction n with
  | zero => intro rows h; simp [addRows]
  | succ n ih =>
      intro rows h
      unfold addRows
      rw [if_neg (by omega)]
      by_cases h2 : ((rows ++ [ref]).length : Int) < M
      · rw [ih _ h2, List.append_assoc]
        congr 1
        have hl : (rows ++ [ref]).length = rows.length + 1 := by simp
        rw [hl]
        have hmin : min (n + 1) (M.toNat - rows.length)
            = min n (M.toNat - (rows.length + 1)) + 1 := by
          simp only [hl] at h2
          omega
        rw [hmin, List.replicate_succ]
        rfl
      · rw [addRows_of_ge _ _ _ _ (by simpa using h2)]
        have hl : (rows ++ [ref]).length = rows.length + 1 := by simp
        simp only [hl] at h2
        have hmin : min (n + 1) (M.toNat - rows.length) = 1 := by omega
        rw [hmin]
        rfl

theorem addRows_length (M : Int) (ref : List String) (rows : List (List String)) (n : Nat) :
    ((addRows M ref rows n).length : Int)
      = max (rows.length : Int) (min ((rows.length : Int) + n) M) := by
  by_cases h : (rows.length : Int) ≥ M
  · rw [addRows_of_ge _ _ _ _ h]; omega
  · rw [addRows_eq _ _ _ _ (by omega)]
    simp only [List.length_append, List.length_replicate]
    omega

theorem mem_addRows (M : Int) (ref : List String) :
    ∀ (n : Nat) (rows : List (List String)) (r : List String),
      r ∈ addRows M ref rows n → r ∈ rows ∨ r = ref := by
  intro n
  induction n with
  | zero => intro rows r h; exact Or.inl h
  | succ n ih =>
      intro rows r h
      unfold addRows at h
      split at h
      · exact Or.inl h
      · rcases ih _ r h with h2 | h2
        · rcases List.mem_append.1 h2 with h3 | h3
          · exact Or.inl h3
          · exact Or.inr (by simpa using h3)
        · exact Or.inr h2

theorem removeRows_of_le (m : Int) (rows : List (List String)) (n : Nat)
    (h : (rows.length : Int) ≤ m) : removeRows m rows n = rows := by
  cases n with
  | zero => rfl
  | succ n => unfold removeRows; rw [if_pos h]

theorem removeRows_length (m : Int) (hm : 0 ≤ m) :
    ∀ (n : Nat) (rows : List (List String)),
      ((removeRows m rows n).length : Int)
        = min (rows.length : Int) (max ((rows.length : Int) - n) m) := by
  intro n
  induction n with
  | zero => intro rows; simp only [removeRows]; omega
  | succ n ih =>
      intro rows
      unfold removeRows
      by_cases h : (rows.length : Int) ≤ m
      · rw [if_pos h]; omega
      · rw [if_neg h, ih]
        simp only [List.length_dropLast]
        omega

theorem mem_removeRows (m : Int) :
    ∀ (n : Nat) (rows : List (List String)) (r : List String),
      r ∈ removeRows m rows n → r ∈ rows := by
  intro n
  induction n with
  | zero => intro rows r h; exact h
  | succ n ih =>
      intro rows r h
      unfold removeRows at h
      split at h
      · exact h
      · exact List.dropLast_subset rows (ih _ r h)

theorem growColsRow_length (M : Int) (r : List String) :
    (growColsRow M r).length = if (r.length : Int) ≥ M then r.length else r.length + 1 := by
  unfold growColsRow
  split
  · rfl
  · simp

theorem shrinkColsRow_length (m : Int) (r : List String) :
    (shrinkColsRow m r).length = if (r.length : Int) ≤ m then r.length else r.length - 1 := by
  unfold shrinkColsRow
  split
  · rfl
  · simp

theorem rowsOf_setBody (gt : GrowthTable) (t : HtmlTable) (b : List (List String)) :
    rowsOf { gt with field := setBody t b } = b := by
  simp only [rowsOf, getBody_setBody]

theorem rowsOf_update_snd (gt : GrowthTable) :
    rowsOf { gt with field := (getBodyOfField gt.field).2 } = rowsOf gt := by
  simp only [rowsOf, getBody_snd]

/-- Claim C1: for every grid with row count `R` in `[minDim, maxDim]`
(bounds as constrained by the data model, `1 ≤ minDim`) and every
`k ≥ 1`, `growRows k` leaves row count `min (R + k) maxDim` and
`shrinkRows k` leaves row count `max (R - k) minDim`. -/
theorem claim_C1_row_count (gt : GrowthTable) (k : Nat)
    (hmin : 1 ≤ gt.minDimCount)
    (hlo : gt.minDimCount ≤ ((rowsOf gt).length : Int))
    (hhi : ((rowsOf gt).length : Int) ≤ gt.maxDimCount)
    (hk : 1 ≤ k) :
    ((rowsOf (growRows gt k)).length : Int)
      = min (((rowsOf gt).length : Int) + k) gt.maxDimCount ∧
    ((rowsOf (shrinkRows gt k)).length : Int)
      = max (((rowsOf gt).length : Int) - k) gt.minDimCount := by
  constructor
  · have hpos : (k : Int) > 0 := by omega
    simp only [growRows, changeRows, if_pos hpos]
    have hne : (getBodyOfField gt.field).1 ≠ [] := by
      intro h
      simp only [rowsOf, h, List.length_nil] at hlo
      omega
    split
    · rename_i heq
      exact absurd (List.getLast?_eq_none_iff.1 heq) hne
    · rename_i ref heq
      rw [rowsOf_setBody, addRows_length]
      simp only [rowsOf] at hlo hhi ⊢
      have : ((k : Int)).toNat = k := Int.toNat_natCast k
      rw [this]
      omega
  · have hneg : ¬ (-(k : Int) > 0) := by omega
    simp only [shrinkRows, changeRows, if_neg hneg]
    rw [rowsOf_setBody, removeRows_length gt.minDimCount (by omega)]
    have : (-(k : Int)).natAbs = k := by
      simp [Int.natAbs_neg]
    rw [this]
    simp only [rowsOf] at hlo hhi ⊢
    omega

/-- Claim C2: `#syncCurrentState` computes exactly the four flags
`canAddY = R < maxDim`, `canRemY = R > minDim`, `canAddX = C < maxDim`,
`canRemX = C > minDim`, where `R` is the row count and `C` the cell
count of the first row (0 when there are no rows); the add/remove-row
buttons are wired to the Y flags and the column buttons to the X flags. -/
theorem claim_C2_capabilities (gt : GrowthTable) :
    ((syncCurrentState gt).1.canAddY = true ↔ ((rowsOf gt).length : Int) < gt.maxDimCount) ∧
    ((syncCurrentState gt).1.canRemY = true ↔ gt.minDimCount < ((rowsOf gt).length : Int)) ∧
    ((syncCurrentState gt).1.canAddX = true ↔ colCountJs (rowsOf gt) < gt.maxDimCount) ∧
    ((syncCurrentState gt).1.canRemX = true ↔ gt.minDimCount < colCountJs (rowsOf gt)) := by
  simp only [syncCurrentState, rowsOf]
  split_ifs with h1 h2 h3 h4 <;> simp_all

theorem removeRows_nil (m : Int) (n : Nat) : removeRows m [] n = [] := by
  induction n with
  | zero => rfl
  | succ n ih =>
      unfold removeRows
      split
      · rfl
      · simpa using ih

theorem syncCurrentState_stable (gt : GrowthTable) :
    syncCurrentState ((syncCurrentState gt).2) = syncCurrentState gt := by
  simp [syncCurrentState, getBody_snd]

/-- Claim C5: a rectangular grid stays rectangular across any single
`#changeRows` or `#changeCols` call, whatever the delta. -/
theorem claim_C5_rectangular (gt : GrowthTable)
    (hrect : Rectangular (rowsOf gt)) (δ : Int) :
    Rectangular (rowsOf (changeRows gt δ)) ∧ Rectangular (rowsOf (changeCols gt δ)) := by
  simp only [rowsOf] at hrect
  constructor
  · simp only [changeRows]
    split
    · split
      · rw [rowsOf_update_snd]
        exact hrect
      · rename_i ref heq
        rw [rowsOf_setBody]
        have href : ref ∈ (getBodyOfField gt.field).1 :=
          List.mem_of_getLast?_eq_some heq
        intro r1 h1 r2 h2
        have m1 : r1 ∈ (getBodyOfField gt.field).1 := by
          rcases mem_addRows _ _ _ _ _ h1 with h | h
          · exact h
          · rw [h]; exact href
        have m2 : r2 ∈ (getBodyOfField gt.field).1 := by
          rcases mem_addRows _ _ _ _ _ h2 with h | h
          · exact h
          · rw [h]; exact href
        exact hrect r1 m1 r2 m2
    · rw [rowsOf_setBody]
      intro r1 h1 r2 h2
      exact hrect r1 (mem_removeRows _ _ _ _ h1) r2 (mem_removeRows _ _ _ _ h2)
  · simp only [changeCols]
    split
    · rw [rowsOf_setBody]
      intro r1 h1 r2 h2
      obtain ⟨a, ha, rfl⟩ := List.mem_map.1 h1
      obtain ⟨b, hb, rfl⟩ := List.mem_map.1 h2
      have hab := hrect a ha b hb
      rw [growColsRow_length, growColsRow_length, hab]
    · rw [rowsOf_setBody]
      intro r1 h1 r2 h2
      obtain ⟨a, ha, rfl⟩ := List.mem_map.1 h1
      obtain ⟨b, hb, rfl⟩ := List.mem_map.1 h2
      have hab := hrect a ha b hb
      rw [shrinkColsRow_length, shrinkColsRow_length, hab]

/-- Claim C6: at the bounds the row operations are silent no-ops (the
model is total, so no error can be raised): at `R = maxDim`, `growRows k`
leaves the rows unchanged for any `k ≥ 1`, and at `R = minDim`,
`shrinkRows k` leaves them unchanged. -/
theorem claim_C6_noop_at_bound (gt : GrowthTable) (k : Nat) (hk : 1 ≤ k) :
    (((rowsOf gt).length : Int) = gt.maxDimCount →
      rowsOf (growRows gt k) = rowsOf gt) ∧
    (((rowsOf gt).length : Int) = gt.minDimCount →
      rowsOf (shrinkRows gt k) = rowsOf gt) := by
  constructor
  · intro hR
    have hpos : (k : Int) > 0 := by omega
    simp only [growRows, changeRows, if_pos hpos]
    split
    · exact rowsOf_update_snd gt
    · rw [rowsOf_setBody, addRows_of_ge]
      · rfl
      · simp only [rowsOf] at hR
        omega
  · intro hR
    have hneg : ¬ (-(k : Int) > 0) := by omega
    simp only [shrinkRows, changeRows, if_neg hneg]
    rw [rowsOf_setBody, removeRows_of_le]
    · rfl
    · simp only [rowsOf] at hR
      omega

/-- Claim C8: on a grid with zero rows, `growRows k` is a no-op for
every `k` (the grid stays empty, and the model is total so no error is
raised), and the column count read by `#syncCurrentState` is `0`. -/
theorem claim_C8_zero_rows (gt : GrowthTable) (h : rowsOf gt = []) :
    (∀ k : Nat, rowsOf (growRows gt k) = []) ∧ colCountJs (rowsOf gt) = 0 := by
  constructor
  · intro k
    simp only [growRows, changeRows]
    split
    · split
      · rw [rowsOf_update_snd, h]
      · rename_i ref heq
        simp only [rowsOf] at h
        rw [h] at heq
        simp at heq
    · rw [rowsOf_setBody]
      simp only [rowsOf] at h
      rw [h, removeRows_nil]
  · rw [h]
    rfl

/-- Claim C9: `#syncCurrentState` is idempotent and side-effect-free on
the grid: a second call with no intervening mutation produces the same
flag record, and neither call changes any row or cell (the only DOM
write besides the buttons is the creation of an empty tbody when none
exists, which leaves the rows untouched). -/
theorem claim_C9_idempotent (gt : GrowthTable) :
    (syncCurrentState ((syncCurrentState gt).2)).1 = (syncCurrentState gt).1 ∧
    rowsOf ((syncCurrentState gt).2) = rowsOf gt ∧
    rowsOf ((syncCurrentState ((syncCurrentState gt).2)).2) = rowsOf gt := by
  refine ⟨by rw [syncCurrentState_stable], rowsOf_update_snd gt, ?_⟩
  rw [syncCurrentState_stable]
  exact rowsOf_update_snd gt

/-- Claim C7: every row appended by `growRows` is a content-copy of the
last existing row at the time of its insertion, i.e. each appended row
equals the row just before it in the final grid. -/
theorem claim_C7_copy_of_last (gt : GrowthTable) (k : Nat) (hk : 1 ≤ k)
    (hne : rowsOf gt ≠ []) (j : Nat)
    (hj : (rowsOf gt).length ≤ j)
    (hj2 : j < (rowsOf (growRows gt k)).length) :
    (rowsOf (growRows gt k))[j]? = (rowsOf (growRows gt k))[j - 1]? := by
  have hpos : (k : Int) > 0 := by omega
  simp only [rowsOf] at hne hj
  cases hl : (getBodyOfField gt.field).1.getLast? with
  | none => exact absurd (List.getLast?_eq_none_iff.1 hl) hne
  | some ref =>
      simp only [growRows, changeRows, if_pos hpos, hl, rowsOf_setBody] at hj2 ⊢
      by_cases hge : ((getBodyOfField gt.field).1.length : Int) ≥ gt.maxDimCount
      · rw [addRows_of_ge _ _ _ _ hge] at hj2
        omega
      · rw [addRows_eq _ _ _ _ (by omega)] at hj2 ⊢
        rw [List.length_append, List.length_replicate] at hj2
        have hLHS :
            ((getBodyOfField gt.field).1 ++
              List.replicate (min ((k : Int)).toNat
                (gt.maxDimCount.toNat - (getBodyOfField gt.field).1.length)) ref)[j]?
              = some ref := by
          rw [List.getElem?_append_right hj, List.getElem?_replicate, if_pos (by omega)]
        rw [hLHS]
        rcases Nat.lt_or_ge (j - 1) (getBodyOfField gt.field).1.length with hcase | hcase
        · rw [List.getElem?_append_left hcase]
          have hj1 : j - 1 = (getBodyOfField gt.field).1.length - 1 := by omega
          rw [hj1, ← List.getLast?_eq_getElem?]
          exact hl.symm
        · rw [List.getElem?_append_right hcase, List.getElem?_replicate, if_pos (by omega)]

/-- Claim C10: a single `#changeCols` call reads only the sign of its
delta, and changes each non-skipped row by exactly one cell: with a
positive delta every row below `maxDim` gains one cell, with a negative
delta every row above `minDim` loses one cell (the bound `0 ≤ minDim`
keeps the model aligned with the DOM, where `deleteCell(-1)` on an
empty row would throw). -/
theorem claim_C10_sign_only (gt : GrowthTable) (δ : Int) (hδ : δ ≠ 0)
    (hm : 0 ≤ gt.minDimCount) :
    changeCols gt δ = changeCols gt (if 0 < δ then 1 else -1) ∧
    (rowsOf (changeCols gt δ)).map List.length
      = (rowsOf gt).map (fun r =>
          if 0 < δ then
            (if (r.length : Int) < gt.maxDimCount then r.length + 1 else r.length)
          else
            (if gt.minDimCount < (r.length : Int) then r.length - 1 else r.length)) := by
  constructor
  · by_cases h : 0 < δ
    · rw [if_pos h]
      simp only [changeCols]
      rw [if_pos h, if_pos (show (1 : Int) > 0 by norm_num)]
    · rw [if_neg h]
      simp only [changeCols]
      rw [if_neg (show ¬ (δ > 0) from h), if_neg (show ¬ ((-1 : Int) > 0) by norm_num)]
  · by_cases h : 0 < δ
    · simp only [changeCols, rowsOf]
      rw [if_pos (show δ > 0 from h)]
      have hb := rowsOf_setBody gt (getBodyOfField gt.field).2
        ((getBodyOfField gt.field).1.map (growColsRow gt.maxDimCount))
      simp only [rowsOf] at hb
      rw [hb, List.map_map]
      refine List.map_congr_left ?_
      intro r hr
      simp only [Function.comp_apply]
      rw [if_pos h, growColsRow_length]
      split_ifs <;> omega
    · simp only [changeCols, rowsOf]
      rw [if_neg (show ¬ (δ > 0) from h)]
      have hb := rowsOf_setBody gt (getBodyOfField gt.field).2
        ((getBodyOfField gt.field).1.map (shrinkColsRow gt.minDimCount))
      simp only [rowsOf] at hb
      rw [hb, List.map_map]
      refine List.map_congr_left ?_
      intro r hr
      simp only [Function.comp_apply]
      rw [if_neg h, shrinkColsRow_length]
      split_ifs <;> omega

/-- A grid for the claim C3 counterexample: bounds 2..4, one row of two
cells. -/
def gtC3 : GrowthTable :=
  { minDimCount := 2, maxDimCount := 4, field := ⟨[[["a", "b"]]]⟩ }

/-- Claim C3 counterexample: `growCols 2` on a row of 2 cells under
`maxDim = 4` yields 3 cells, not the 4 the claim's per-call clamp story
predicts; the magnitude of the count is ignored. -/
theorem claim_C3_counterexample :
    (rowsOf (growCols gtC3 2)).map List.length = [3] ∧
    (rowsOf (growCols gtC3 2)).map List.length ≠ [4] := by
  constructor
  · decide
  · decide

/-- Claim C3 amended: `growCols` adds exactly one cell (copying the
row's last cell, or empty content for a cell-less row) to every row
whose cell count is below `maxDim` and skips the others, regardless of
the requested count; consequently a call can never push a row's cell
count above `maxDim`. -/
theorem claim_C3_amended (gt : GrowthTable) (k : Nat) (hk : 1 ≤ k) :
    rowsOf (growCols gt k)
      = (rowsOf gt).map (fun r =>
          if gt.maxDimCount ≤ (r.length : Int) then r
          else r ++ [r.getLast?.getD ""]) ∧
    ((∀ r ∈ rowsOf gt, (r.length : Int) ≤ gt.maxDimCount) →
      ∀ r ∈ rowsOf (growCols gt k), (r.length : Int) ≤ gt.maxDimCount) := by
  have hpos : (k : Int) > 0 := by omega
  have h1 : rowsOf (growCols gt k) = (rowsOf gt).map (growColsRow gt.maxDimCount) := by
    simp only [growCols, changeCols, if_pos hpos, rowsOf_setBody]
    rfl
  constructor
  · rw [h1]
    refine List.map_congr_left ?_
    intro r hr
    unfold growColsRow
    rfl
  · intro hb r hr
    rw [h1] at hr
    obtain ⟨a, ha, rfl⟩ := List.mem_map.1 hr
    have haM := hb a ha
    rw [growColsRow_length]
    split_ifs <;> omega

/-- Whether an `Except` result is a success. -/
def exceptOk {ε α : Type} (e : Except ε α) : Bool :=
  match e with
  | Except.ok _ => true
  | Except.error _ => false

/-- A malformed table for the claim C4 counterexample: one tbody whose
two rows have different lengths. -/
def badTable : HtmlTable := ⟨[[["a"], ["b", "c"]]]⟩

/-- Claim C4 counterexample: with `minDim = 0 < 1`, `maxDim = -1 <
minDim` and a non-rectangular grid — all three conditions the claim
says must fail construction — the constructor still succeeds and
produces an instance. -/
theorem claim_C4_counterexample :
    exceptOk (construct (some (Elem.tableElem badTable)) (some Elem.otherElem)
        (some Elem.otherElem) (some Elem.otherElem) (some Elem.otherElem) 0 (-1)) = true ∧
    (0 : Int) < 1 ∧ (-1 : Int) < (0 : Int) ∧
    ¬ Rectangular [["a"], ["b", "c"]] := by
  refine ⟨rfl, by norm_num, by norm_num, by decide⟩

/-- Claim C4 amended: construction never validates the bounds or the
grid shape; it succeeds exactly when the field element is a table and
all four control elements are present, whatever `minDim`, `maxDim` and
the grid contents are. -/
theorem claim_C4_amended (fieldEl b1 b2 b3 b4 : Option Elem) (m M : Int) :
    exceptOk (construct fieldEl b1 b2 b3 b4 m M) = true ↔
      ((∃ t, fieldEl = some (Elem.tableElem t)) ∧
        b1.isSome = true ∧ b2.isSome = true ∧ b3.isSome = true ∧ b4.isSome = true) := by
  cases fieldEl with
  | none => simp [construct, exceptOk]
  | some e =>
      cases e with
      | otherElem => simp [construct, exceptOk]
      | tableElem t =>
          simp only [construct]
          by_cases h : (b1.isSome && b2.isSome && b3.isSome && b4.isSome) = true
          · rw [if_pos h]
            simp only [Bool.and_eq_true] at h
            simp [exceptOk, h]
          · rw [if_neg h]
            constructor
            · intro hfalse
              simp [exceptOk] at hfalse
            · rintro ⟨-, h1, h2, h3, h4⟩
              refine absurd ?_ h
              rw [h1, h2, h3, h4]
              rfl

/-- Concrete grid for the claim C1 witness: 2 rows, bounds 2..10. -/
def gtW1 : GrowthTable :=
  { minDimCount := 2, maxDimCount := 10,
    field := ⟨[[["a", "b", "c"], ["a", "b", "c"]]]⟩ }

/-- Witness for claim C1 at `gtW1` with `k = 3`. -/
theorem claim_C1_witness :
    (1 ≤ gtW1.minDimCount ∧ gtW1.minDimCount ≤ ((rowsOf gtW1).length : Int) ∧
      ((rowsOf gtW1).length : Int) ≤ gtW1.maxDimCount ∧ (1 : Nat) ≤ 3) ∧
    ((rowsOf (growRows gtW1 3)).length : Int)
      = min (((rowsOf gtW1).length : Int) + 3) gtW1.maxDimCount ∧
    ((rowsOf (shrinkRows gtW1 3)).length : Int)
      = max (((rowsOf gtW1).length : Int) - 3) gtW1.minDimCount :=
  ⟨⟨by decide, by decide, by decide, by decide⟩,
    claim_C1_row_count gtW1 3 (by decide) (by decide) (by decide) (by decide)⟩

/-- Concrete grid for the claim C5 witness: 3 rectangular rows. -/
def gtW5 : GrowthTable :=
  { minDimCount := 2, maxDimCount := 4,
    field := ⟨[[["x", "y"], ["u", "v"], ["p", "q"]]]⟩ }

/-- Witness for claim C5 at `gtW5` with delta 1. -/
theorem claim_C5_witness :
    Rectangular (rowsOf gtW5) ∧
    (Rectangular (rowsOf (changeRows gtW5 1)) ∧
      Rectangular (rowsOf (changeCols gtW5 1))) :=
  ⟨by decide, claim_C5_rectangular gtW5 (by decide) 1⟩

/-- Concrete grid for the claim C6 witness: 3 rows, bounds 2..3, so the
grid is at its row maximum. -/
def gtW6 : GrowthTable :=
  { minDimCount := 2, maxDimCount := 3, field := ⟨[[["a"], ["b"], ["c"]]]⟩ }

/-- Witness for claim C6 at `gtW6` with `k = 2`. -/
theorem claim_C6_witness :
    ((1 : Nat) ≤ 2) ∧
    ((((rowsOf gtW6).length : Int) = gtW6.maxDimCount →
      rowsOf (growRows gtW6 2) = rowsOf gtW6) ∧
     (((rowsOf gtW6).length : Int) = gtW6.minDimCount →
      rowsOf (shrinkRows gtW6 2) = rowsOf gtW6)) :=
  ⟨by decide, claim_C6_noop_at_bound gtW6 2 (by decide)⟩

/-- Concrete grid for the claim C7 witness: the spec scenario, 2 rows of
3 cells, last row `["a","b","c"]`, `maxDim = 10`. -/
def gtW7 : GrowthTable :=
  { minDimCount := 2, maxDimCount := 10,
    field := ⟨[[["a", "b", "c"], ["a", "b", "c"]]]⟩ }

/-- Witness for claim C7 at `gtW7`, `k = 2`, appended index `j = 3`. -/
theorem claim_C7_witness :
    ((1 : Nat) ≤ 2 ∧ rowsOf gtW7 ≠ [] ∧ (rowsOf gtW7).length ≤ 3 ∧
      3 < (rowsOf (growRows gtW7 2)).length) ∧
    (rowsOf (growRows gtW7 2))[3]? = (rowsOf (growRows gtW7 2))[3 - 1]? :=
  ⟨⟨by decide, by decide, by decide, by decide⟩,
    claim_C7_copy_of_last gtW7 2 (by decide) (by decide) 3 (by decide) (by decide)⟩

/-- Concrete grid for the claim C8 witness: one tbody with zero rows. -/
def gtW8 : GrowthTable :=
  { minDimCount := 2, maxDimCount := 10, field := ⟨[[]]⟩ }

/-- Witness for claim C8 at `gtW8`. -/
theorem claim_C8_witness :
    rowsOf gtW8 = [] ∧
    ((∀ k : Nat, rowsOf (growRows gtW8 k) = []) ∧ colCountJs (rowsOf gtW8) = 0) :=
  ⟨by decide, claim_C8_zero_rows gtW8 (by decide)⟩

/-- Concrete grid for the claim C10 witness: rows of 3, 4 and 1 cells,
bounds 2..4. -/
def gtW10 : GrowthTable :=
  { minDimCount := 2, maxDimCount := 4,
    field := ⟨[[["a", "b", "c"], ["d", "e", "f", "g"], ["h"]]]⟩ }

/-- Witness for claim C10 at `gtW10` with delta 5. -/
theorem claim_C10_witness :
    ((5 : Int) ≠ 0 ∧ 0 ≤ gtW10.minDimCount) ∧
    (changeCols gtW10 5 = changeCols gtW10 (if (0 : Int) < 5 then 1 else -1) ∧
      (rowsOf (changeCols gtW10 5)).map List.length
        = (rowsOf gtW10).map (fun r =>
            if (0 : Int) < 5 then
              (if (r.length : Int) < gtW10.maxDimCount then r.length + 1 else r.length)
            else
              (if gtW10.minDimCount < (r.length : Int) then r.length - 1 else r.length))) :=
  ⟨⟨by decide, by decide⟩, claim_C10_sign_only gtW10 5 (by decide) (by decide)⟩

/-- Concrete grid for the amended claim C3 witness: a row below and a
row at `maxDim = 4`. -/
def gtW3 : GrowthTable :=
  { minDimCount := 2, maxDimCount := 4,
    field := ⟨[[["a", "b"], ["c", "d", "e", "f"]]]⟩ }

/-- Witness for the amended claim C3 at `gtW3` with `k = 2`. -/
theorem claim_C3_amended_witness :
    ((1 : Nat) ≤ 2) ∧
    (rowsOf (growCols gtW3 2)
        = (rowsOf gtW3).map (fun r =>
            if gtW3.maxDimCount ≤ (r.length : Int) then r
            else r ++ [r.getLast?.getD ""]) ∧
      ((∀ r ∈ rowsOf gtW3, (r.length : Int) ≤ gtW3.maxDimCount) →
        ∀ r ∈ rowsOf (growCols gtW3 2), (r.length : Int) ≤ gtW3.maxDimCount)) :=
  ⟨by decide, claim_C3_amended gtW3 2 (by decide)⟩
